import Mathlib

/-!
Shallow embedding of the Conway Game of Life engine from `src/life.js` and the
second (unnamed) source variant.  Cell state is an integer "vitality":
`aliveColor = 0` is alive, `deadColor = 255` is fully dead, and `expireCell`
adds `dyingDelta` (the decay step) to a cell's vitality.  One generation is
computed by `iterate`: a scan over all cells in row-major order (y outer,
x inner) builds a queue of revive/expire records against the untouched grid,
and the queue is then consumed, mutating the grid.
-/

namespace Life

/-- Colour of a live cell in the source (`aliveColor = 0`). -/
def aliveColor : Nat := 0

/-- Colour of a fully dead cell in the source (`deadColor = 255`); this is the
spec's `MAX`. -/
def deadColor : Nat := 255

/-- The source's default decay increment (`dyingDelta = 4`). -/
def dyingDelta : Nat := 4

/-- The grid: fixed dimensions plus the `cells` array, modelled as a total
function (the source stores `cells[x][y]`). -/
structure Grid where
  width : Nat
  height : Nat
  cells : Nat → Nat → Nat

/-- One queued operation from the scan phase: the source pushes either
`{ revive: true, x, y }` or `{ expire: true, x, y }`. -/
inductive ChangeRecord where
  | revive (x y : Nat) : ChangeRecord
  | expire (x y : Nat) : ChangeRecord
deriving DecidableEq, Repr

/-- Pointwise update of the cells array (`cells[x][y] = v`). -/
def updateCells (c : Nat → Nat → Nat) (x y v : Nat) : Nat → Nat → Nat :=
  fun a b => if a = x ∧ b = y then v else c a b

/-- Write one cell of a grid. -/
def setCell (g : Grid) (x y v : Nat) : Grid :=
  { g with cells := updateCells g.cells x y v }

/-- `reviveCell` from the source: `cells[x][y] = aliveColor`. -/
def reviveCell (g : Grid) (x y : Nat) : Grid :=
  setCell g x y aliveColor

/-- `expireCell` from the source: `cells[x][y] += dyingDelta`, with the delta
`d` kept as a parameter (the source uses 4; 255 gives binary Life). -/
def expireCell (d : Nat) (g : Grid) (x y : Nat) : Grid :=
  setCell g x y (g.cells x y + d)

/-- Consume one queue item: `item.revive ? reviveCell(...) : expireCell(...)`. -/
def applyChange (d : Nat) (g : Grid) (c : ChangeRecord) : Grid :=
  match c with
  | ChangeRecord.revive x y => reviveCell g x y
  | ChangeRecord.expire x y => expireCell d g x y

/-- Consume the whole queue in order. -/
def applyQueue (d : Nat) (g : Grid) (q : List ChangeRecord) : Grid :=
  q.foldl (applyChange d) g

/-- The nine `(dj, dk)` loop offsets of the neighbour scan
(`j = x-1 .. x+1` outer, `k = y-1 .. y+1` inner). -/
def deltas : List (Int × Int) :=
  [(-1, -1), (-1, 0), (-1, 1), (0, -1), (0, 0), (0, 1), (1, -1), (1, 0), (1, 1)]

/-- Wraparound of the unnamed variant: `(width + j) % width`. -/
def wrapMod (w : Nat) (j : Int) : Nat :=
  (((w : Int) + j) % (w : Int)).toNat

/-- Wraparound of `life.js`: an `if` chain
(`j < 0 → width-1`, `j == width → 0`, else `j`). -/
def wrapIf (w : Nat) (j : Int) : Nat :=
  if j < 0 then w - 1 else if j = (w : Int) then 0 else j.toNat

/-- Neighbour count of the unnamed variant: skip the literal `dx=dy=0` offset
(`continue`), wrap with `%`, and count cells equal to `aliveColor`. -/
def neighbourCount (g : Grid) (x y : Nat) : Nat :=
  deltas.countP fun dd =>
    if dd.1 = 0 ∧ dd.2 = 0 then false
    else g.cells (wrapMod g.width ((x : Int) + dd.1)) (wrapMod g.height ((y : Int) + dd.2))
        == aliveColor

/-- Neighbour count of `life.js`: wrap first with the `if` chain, then skip a
probe only when the wrapped coordinate equals `(x, y)` itself. -/
def neighbourCountIf (g : Grid) (x y : Nat) : Nat :=
  deltas.countP fun dd =>
    (!(wrapIf g.width ((x : Int) + dd.1) == x && wrapIf g.height ((y : Int) + dd.2) == y))
      && (g.cells (wrapIf g.width ((x : Int) + dd.1)) (wrapIf g.height ((y : Int) + dd.2))
          == aliveColor)

/-- The rule block of the scan: given the neighbour-count function `cnt`,
decide which record (if any) the cell `(x, y)` pushes onto the queue. -/
def cellChange (cnt : Grid → Nat → Nat → Nat) (g : Grid) (x y : Nat) :
    Option ChangeRecord :=
  let alive := g.cells x y == aliveColor
  let n := cnt g x y
  if alive then
    if n < 2 ∨ n > 3 then some (ChangeRecord.expire x y) else none
  else
    if n = 3 then some (ChangeRecord.revive x y)
    else if g.cells x y > 0 then some (ChangeRecord.expire x y)
    else none

/-- Row-major scan order of the two nested loops (`y` outer, `x` inner). -/
def scanCoords (w h : Nat) : List (Nat × Nat) :=
  (List.range h).flatMap fun y => (List.range w).map fun x => (x, y)

/-- One step of the scan loop: the state is the (never written) grid together
with the queue built so far. -/
def scanStep (cnt : Grid → Nat → Nat → Nat) (s : Grid × List ChangeRecord)
    (p : Nat × Nat) : Grid × List ChangeRecord :=
  (s.1, s.2 ++ (cellChange cnt s.1 p.1 p.2).toList)

/-- `iterate`, parameterized by the neighbour-count function: run the scan
over all cells building the queue, then consume the queue. -/
def iterateWith (cnt : Grid → Nat → Nat → Nat) (d : Nat) (g : Grid) :
    Grid × List ChangeRecord :=
  let s := (scanCoords g.width g.height).foldl (scanStep cnt) (g, [])
  (applyQueue d s.1 s.2, s.2)

/-- `iterate` of the unnamed variant (modulo wraparound, pre-wrap skip);
this is the spec's `step`. -/
def iterate (d : Nat) (g : Grid) : Grid × List ChangeRecord :=
  iterateWith neighbourCount d g

/-- `iterate` of `life.js` (if-chain wraparound, post-wrap skip). -/
def iterateIf (d : Nat) (g : Grid) : Grid × List ChangeRecord :=
  iterateWith neighbourCountIf d g

/-- The queue produced by a scan of `g` against the frozen snapshot `g`. -/
def queueOf (cnt : Grid → Nat → Nat → Nat) (g : Grid) : List ChangeRecord :=
  (scanCoords g.width g.height).filterMap fun p => cellChange cnt g p.1 p.2

/-- The coordinate a change record is tagged with. -/
def coordOf : ChangeRecord → Nat × Nat
  | ChangeRecord.revive x y => (x, y)
  | ChangeRecord.expire x y => (x, y)

/-- The effect of an optional change record on one cell's vitality. -/
def applyEffect (d : Nat) (o : Option ChangeRecord) (v : Nat) : Nat :=
  match o with
  | none => v
  | some (ChangeRecord.revive _ _) => aliveColor
  | some (ChangeRecord.expire _ _) => v + d

lemma scan_foldl (cnt : Grid → Nat → Nat → Nat) (g : Grid) :
    ∀ (L : List (Nat × Nat)) (q : List ChangeRecord),
      L.foldl (scanStep cnt) (g, q)
        = (g, q ++ L.filterMap fun p => cellChange cnt g p.1 p.2) := by
  intro L
  induction L with
  | nil => intro q; simp
  | cons p L ih =>
    intro q
    simp only [List.foldl_cons, scanStep, List.filterMap_cons]
    rw [ih]
    cases h : cellChange cnt g p.1 p.2 <;> simp [h, Option.toList]

lemma iterateWith_eq (cnt : Grid → Nat → Nat → Nat) (d : Nat) (g : Grid) :
    iterateWith cnt d g = (applyQueue d g (queueOf cnt g), queueOf cnt g) := by
  unfold iterateWith queueOf
  rw [scan_foldl]
  simp

lemma cellChange_coord (cnt : Grid → Nat → Nat → Nat) (g : Grid) (x y : Nat)
    (r : ChangeRecord) (h : cellChange cnt g x y = some r) : coordOf r = (x, y) := by
  unfold cellChange at h
  dsimp only at h
  split_ifs at h <;>
    first
    | exact Option.noConfusion h
    | (injection h with h2; subst h2; rfl)

lemma applyChange_cells_ne (d : Nat) (g : Grid) (r : ChangeRecord) (x y : Nat)
    (h : coordOf r ≠ (x, y)) : (applyChange d g r).cells x y = g.cells x y := by
  cases r with
  | revive a b =>
    simp only [applyChange, reviveCell, setCell, updateCells]
    rw [if_neg]
    rintro ⟨rfl, rfl⟩
    exact h rfl
  | expire a b =>
    simp only [applyChange, expireCell, setCell, updateCells]
    rw [if_neg]
    rintro ⟨rfl, rfl⟩
    exact h rfl

lemma applyQueue_frame (d : Nat) (q : List ChangeRecord) :
    ∀ (g : Grid) (x y : Nat), (∀ r ∈ q, coordOf r ≠ (x, y)) →
      (applyQueue d g q).cells x y = g.cells x y := by
  induction q with
  | nil => intro g x y _; rfl
  | cons r q ih =>
    intro g x y h
    show (applyQueue d (applyChange d g r) q).cells x y = g.cells x y
    rw [ih _ x y fun s hs => h s (List.mem_cons_of_mem _ hs)]
    exact applyChange_cells_ne d g r x y (h r (List.mem_cons_self _ _))

lemma filterMap_cellChange_coords (cnt : Grid → Nat → Nat → Nat) (g : Grid)
    (L : List (Nat × Nat)) (r : ChangeRecord)
    (hr : r ∈ L.filterMap fun p => cellChange cnt g p.1 p.2) : coordOf r ∈ L := by
  rcases List.mem_filterMap.mp hr with ⟨p, hp, he⟩
  rw [cellChange_coord cnt g p.1 p.2 r he]
  simpa using hp

lemma applyQueue_filterMap (cnt : Grid → Nat → Nat → Nat) (d : Nat) (g : Grid)
    (x y : Nat) :
    ∀ (L : List (Nat × Nat)), L.Nodup → (x, y) ∈ L →
      ∀ (g' : Grid), g'.cells x y = g.cells x y →
        (applyQueue d g' (L.filterMap fun p => cellChange cnt g p.1 p.2)).cells x y
          = applyEffect d (cellChange cnt g x y) (g.cells x y) := by
  intro L
  induction L with
  | nil => intro _ hmem; exact absurd hmem (List.not_mem_nil _)
  | cons p L ih =>
    intro hnd hmem g' hval
    rw [List.filterMap_cons]
    by_cases hp : p = (x, y)
    · subst hp
      have hnotin : (x, y) ∉ L := (List.nodup_cons.mp hnd).1
      have hframe : ∀ s ∈ L.filterMap fun p => cellChange cnt g p.1 p.2,
          coordOf s ≠ (x, y) := by
        intro s hs hcoord
        exact hnotin (hcoord ▸ filterMap_cellChange_coords cnt g L s hs)
      cases hc : cellChange cnt g x y with
      | none =>
        simp only [hc]
        rw [applyQueue_frame d _ g' x y hframe, hval]
        rfl
      | some r =>
        simp only [hc]
        show (applyQueue d (applyChange d g' r) _).cells x y = _
        rw [applyQueue_frame d _ _ x y hframe]
        have hco := cellChange_coord cnt g x y r hc
        cases r with
        | revive a b =>
          have hab : a = x ∧ b = y := by
            simpa [coordOf, Prod.ext_iff] using hco
          rcases hab with ⟨rfl, rfl⟩
          simp [applyChange, reviveCell, setCell, updateCells, applyEffect]
        | expire a b =>
          have hab : a = x ∧ b = y := by
            simpa [coordOf, Prod.ext_iff] using hco
          rcases hab with ⟨rfl, rfl⟩
          simp [applyChange, expireCell, setCell, updateCells, applyEffect, hval]
    · have hmem' : (x, y) ∈ L := by
        rcases List.mem_cons.mp hmem with h | h
        · exact absurd h.symm hp
        · exact h
      have hnd' : L.Nodup := (List.nodup_cons.mp hnd).2
      cases hc : cellChange cnt g p.1 p.2 with
      | none => exact ih hnd' hmem' g' hval
      | some r =>
        show (applyQueue d (applyChange d g' r) _).cells x y = _
        apply ih hnd' hmem'
        rw [applyChange_cells_ne d g' r x y, hval]
        have hco := cellChange_coord cnt g p.1 p.2 r hc
        rw [hco]
        simpa using hp

lemma scanCoords_eq_map (w h : Nat) :
    scanCoords w h = (List.range (h * w)).map fun k => (k % w, k / w) := by
  induction h with
  | zero => simp [scanCoords]
  | succ n ih =>
    have hr2 : List.range ((n + 1) * w) = List.range (n * w) ++
        (List.range w).map fun i => n * w + i := by
      rw [Nat.succ_mul, List.range_add]
    rw [scanCoords, List.range_succ, List.flatMap_append, ← scanCoords, ih, hr2,
      List.map_append, List.map_map]
    congr 1
    simp only [List.flatMap_cons, List.flatMap_nil, List.append_nil]
    apply List.map_congr_left
    intro i hi
    have hiw : i < w := List.mem_range.mp hi
    have hw : 0 < w := Nat.lt_of_le_of_lt (Nat.zero_le i) hiw
    have h1 : (n * w + i) % w = i := by
      rw [Nat.mul_comm, Nat.mul_add_mod, Nat.mod_eq_of_lt hiw]
    have h2 : (n * w + i) / w = n := by
      rw [Nat.mul_comm, Nat.mul_add_div hw, Nat.div_eq_of_lt hiw, Nat.add_zero]
    simp [Function.comp, h1, h2]

lemma scanCoords_mem (w h x y : Nat) :
    (x, y) ∈ scanCoords w h ↔ x < w ∧ y < h := by
  simp only [scanCoords, List.mem_flatMap, List.mem_map, List.mem_range]
  constructor
  · rintro ⟨b, hb, a, ha, heq⟩
    cases heq
    exact ⟨ha, hb⟩
  · rintro ⟨hx, hy⟩
    exact ⟨y, hy, x, hx, rfl⟩

lemma scanCoords_nodup (w h : Nat) : (scanCoords w h).Nodup := by
  rw [scanCoords_eq_map]
  apply List.Nodup.map_on _ (List.nodup_range _)
  intro a _ b _ hab
  have h1 : a % w = b % w := congrArg Prod.fst hab
  have h2 : a / w = b / w := congrArg Prod.snd hab
  have ha := Nat.div_add_mod a w
  have hb := Nat.div_add_mod b w
  rw [← ha, ← hb, h1, h2]

lemma iterateWith_fst_cells (cnt : Grid → Nat → Nat → Nat) (d : Nat) (g : Grid)
    (x y : Nat) (hx : x < g.width) (hy : y < g.height) :
    (iterateWith cnt d g).1.cells x y
      = applyEffect d (cellChange cnt g x y) (g.cells x y) := by
  rw [iterateWith_eq]
  exact applyQueue_filterMap cnt d g x y (scanCoords g.width g.height)
    (scanCoords_nodup _ _) ((scanCoords_mem _ _ x y).mpr ⟨hx, hy⟩) g rfl

lemma mem_queueOf (cnt : Grid → Nat → Nat → Nat) (g : Grid) (x y : Nat)
    (r : ChangeRecord) (hx : x < g.width) (hy : y < g.height)
    (h : cellChange cnt g x y = some r) : r ∈ queueOf cnt g :=
  List.mem_filterMap.mpr ⟨(x, y), (scanCoords_mem _ _ x y).mpr ⟨hx, hy⟩, h⟩

lemma emod_shift (w : Nat) (j : Int) :
    (j + (w : Int)) % (w : Int) = j % (w : Int) := by
  have h := Int.add_mul_emod_self_left (a := j) (b := (w : Int)) (c := 1)
  simpa using h

lemma wrapMod_eq_emod (w : Nat) (j : Int) :
    wrapMod w j = (j % (w : Int)).toNat := by
  unfold wrapMod
  rw [Int.add_comm, emod_shift]

lemma neg_one_emod (w : Nat) (hw : 0 < w) :
    (-1 : Int) % (w : Int) = (w : Int) - 1 := by
  have hw' : (0 : Int) < (w : Int) := by exact_mod_cast hw
  have h : ((-1 : Int) + (w : Int)) % (w : Int) = (-1 : Int) % (w : Int) :=
    emod_shift w (-1)
  rw [← h, Int.emod_eq_of_lt (by omega) (by omega)]
  ring

lemma wrapMod_lt (w : Nat) (j : Int) (hw : 0 < w) : wrapMod w j < w := by
  rw [wrapMod_eq_emod]
  have hw' : (0 : Int) < (w : Int) := by exact_mod_cast hw
  have h1 : j % (w : Int) < (w : Int) := Int.emod_lt_of_pos j hw'
  have h2 : 0 ≤ j % (w : Int) := Int.emod_nonneg j (by omega)
  omega

lemma wrapIf_eq_wrapMod (w : Nat) (j : Int) (hw : 0 < w) (hj1 : -1 ≤ j)
    (hj2 : j ≤ (w : Int)) : wrapIf w j = wrapMod w j := by
  have hw' : (0 : Int) < (w : Int) := by exact_mod_cast hw
  rw [wrapMod_eq_emod]
  unfold wrapIf
  split_ifs with h0 hweq
  · have hj : j = -1 := by omega
    subst hj
    rw [neg_one_emod w hw]
    omega
  · subst hweq
    rw [Int.emod_self]
    rfl
  · rw [Int.emod_eq_of_lt (by omega) (by omega)]

lemma wrapMod_self (w x : Nat) (hw : 0 < w) (hx : x < w) :
    wrapMod w ((x : Int)) = x := by
  have hx' : ((x : Int)) < (w : Int) := by exact_mod_cast hx
  rw [wrapMod_eq_emod, Int.emod_eq_of_lt (by omega) hx']
  simp

lemma wrapMod_sub_one_ne (w x : Nat) (hw : 2 ≤ w) (hx : x < w) :
    wrapMod w ((x : Int) - 1) ≠ x := by
  have hw' : (2 : Int) ≤ (w : Int) := by exact_mod_cast hw
  have hx' : ((x : Int)) < (w : Int) := by exact_mod_cast hx
  rw [wrapMod_eq_emod]
  by_cases h0 : x = 0
  · subst h0
    rw [show ((0 : Nat) : Int) - 1 = (-1 : Int) by ring, neg_one_emod w (by omega)]
    omega
  · have hx1 : (1 : Int) ≤ (x : Int) := by
      exact_mod_cast Nat.one_le_iff_ne_zero.mpr h0
    rw [Int.emod_eq_of_lt (by omega) (by omega)]
    omega

lemma wrapMod_add_one_ne (w x : Nat) (hw : 2 ≤ w) (hx : x < w) :
    wrapMod w ((x : Int) + 1) ≠ x := by
  have hw' : (2 : Int) ≤ (w : Int) := by exact_mod_cast hw
  have hx' : ((x : Int)) < (w : Int) := by exact_mod_cast hx
  rw [wrapMod_eq_emod]
  by_cases hweq : (x : Int) + 1 = (w : Int)
  · rw [hweq, Int.emod_self]
    omega
  · rw [Int.emod_eq_of_lt (by omega) (by omega)]
    omega

lemma probe_self (w x : Nat) (hw : 0 < w) (hx : x < w) :
    wrapMod w ((x : Int) + 0) = x := by
  simpa using wrapMod_self w x hw hx

lemma probe_ne_sub (w x : Nat) (hw : 2 ≤ w) (hx : x < w) :
    (wrapMod w ((x : Int) + -1) == x) = false := by
  rw [show (x : Int) + -1 = (x : Int) - 1 by ring]
  exact beq_eq_false_iff_ne.mpr (wrapMod_sub_one_ne w x hw hx)

lemma probe_ne_add (w x : Nat) (hw : 2 ≤ w) (hx : x < w) :
    (wrapMod w ((x : Int) + 1) == x) = false :=
  beq_eq_false_iff_ne.mpr (wrapMod_add_one_ne w x hw hx)

lemma neighbourCount_eq (g : Grid) (x y : Nat) (hw : 2 ≤ g.width)
    (hh : 2 ≤ g.height) (hx : x < g.width) (hy : y < g.height) :
    neighbourCountIf g x y = neighbourCount g x y := by
  have hw0 : 0 < g.width := by omega
  have hh0 : 0 < g.height := by omega
  have hxw : ((x : Int)) < (g.width : Int) := by exact_mod_cast hx
  have hyh : ((y : Int)) < (g.height : Int) := by exact_mod_cast hy
  have hpx : wrapMod g.width ((x : Int)) = x := wrapMod_self _ _ hw0 hx
  have hpy : wrapMod g.height ((y : Int)) = y := wrapMod_self _ _ hh0 hy
  unfold neighbourCountIf neighbourCount
  apply List.countP_congr
  intro dd hdd
  fin_cases hdd <;>
    simp only [] <;>
    rw [wrapIf_eq_wrapMod _ _ hw0 (by omega) (by omega),
      wrapIf_eq_wrapMod _ _ hh0 (by omega) (by omega)] <;>
    simp [probe_self, probe_ne_sub, probe_ne_add, hpx, hpy, hw, hh, hw0, hh0, hx, hy]

lemma queueOf_eq (g : Grid) (hw : 2 ≤ g.width) (hh : 2 ≤ g.height) :
    queueOf neighbourCountIf g = queueOf neighbourCount g := by
  unfold queueOf
  apply List.filterMap_congr
  intro p hp
  obtain ⟨x, y⟩ := p
  have hm := (scanCoords_mem g.width g.height x y).mp hp
  unfold cellChange
  rw [neighbourCount_eq g x y hw hh hm.1 hm.2]

lemma neighbourCount_eq_zero_of_dead (g : Grid) (x y : Nat) (hx : x < g.width)
    (hy : y < g.height)
    (hdead : ∀ a b, a < g.width → b < g.height → g.cells a b ≠ aliveColor) :
    neighbourCount g x y = 0 := by
  have hw0 : 0 < g.width := Nat.lt_of_le_of_lt (Nat.zero_le x) hx
  have hh0 : 0 < g.height := Nat.lt_of_le_of_lt (Nat.zero_le y) hy
  rw [neighbourCount, List.countP_eq_zero]
  intro dd _
  by_cases h : dd.1 = 0 ∧ dd.2 = 0
  · simp [h]
  · rw [if_neg h]
    simp only [beq_iff_eq]
    exact hdead _ _ (wrapMod_lt _ _ hw0) (wrapMod_lt _ _ hh0)

lemma cellChange_fully_dead (cnt : Grid → Nat → Nat → Nat) (g : Grid) (x y : Nat)
    (hc : g.cells x y = deadColor) (hnc : cnt g x y ≠ 3) :
    cellChange cnt g x y = some (ChangeRecord.expire x y) := by
  unfold cellChange
  dsimp only
  rw [hc]
  have h1 : (deadColor == aliveColor) = false := by decide
  rw [h1]
  simp only [Bool.false_eq_true, if_false, if_neg hnc, if_pos (by decide : deadColor > 0)]

/-- The value assigned to the freshly picked slot at loop index `i` of
`prepareSeed`: `i < liveCount ? aliveColor : deadColor`, where
`liveCount = cellCount / 10` (the source's `liveCount`, a real-number
quotient modelled as a rational). -/
def seedValue (cellCount i : Nat) : Nat :=
  if (i : ℚ) < (cellCount : ℚ) / 10 then aliveColor else deadColor

/-- `rand = Math.round(Math.random() * i)` of the source, with `r` the value
drawn from the random stream (a real in `[0, 1)`, modelled as a rational). -/
def randIndex (r : ℚ) (i : Nat) : Nat :=
  (round (r * (i : ℚ))).toNat

/-- One loop iteration of `prepareSeed`:
`cells[lastX][lastY] = cells[randX][randY]; cells[randX][randY] = value`,
with `randX = rand % width`, `randY = floor(rand / width)`, `lastX = i % width`,
`lastY = floor(i / width)`. -/
def seedStep (w cellCount : Nat) (c : Nat → Nat → Nat) (i : Nat) (r : ℚ) :
    Nat → Nat → Nat :=
  let rand := randIndex r i
  let c1 := updateCells c (i % w) (i / w) (c (rand % w) (rand / w))
  updateCells c1 (rand % w) (rand / w) (seedValue cellCount i)

/-- `prepareSeed` from the source: the inside-out Fisher-Yates loop over all
`cellCount = width * height` linear indices, consuming one random value per
index.  The stream is what a seeded `Math.seedrandom` makes deterministic. -/
def prepareSeed (w h : Nat) (stream : Nat → ℚ) (c : Nat → Nat → Nat) :
    Nat → Nat → Nat :=
  (List.range (w * h)).foldl (fun c i => seedStep w (w * h) c i (stream i)) c

/-- Number of alive (vitality `aliveColor`) cells of the grid. -/
def aliveCount (w h : Nat) (c : Nat → Nat → Nat) : Nat :=
  (scanCoords w h).countP fun p => c p.1 p.2 == aliveColor

/-- View of the 2D cells array as a linear slot array
(slot `k` is cell `(k % w, k / w)`). -/
def slotOf (w : Nat) (c : Nat → Nat → Nat) : Nat → Nat :=
  fun k => c (k % w) (k / w)

/-- Update of a linear slot array. -/
def updateSlot (s : Nat → Nat) (j v : Nat) : Nat → Nat :=
  fun k => if k = j then v else s k

/-- `seedStep` in slot space. -/
def slotStep (N : Nat) (s : Nat → Nat) (i : Nat) (r : ℚ) : Nat → Nat :=
  updateSlot (updateSlot s i (s (randIndex r i))) (randIndex r i) (seedValue N i)

/-- The first `n` iterations of the seeding loop, in slot space. -/
def slotSeedUpTo (N : Nat) (stream : Nat → ℚ) (s : Nat → Nat) (n : Nat) :
    Nat → Nat :=
  (List.range n).foldl (fun s i => slotStep N s i (stream i)) s

lemma randIndex_le (r : ℚ) (i : Nat) (hr : r < 1) : randIndex r i ≤ i := by
  unfold randIndex
  have h0 : (0 : ℚ) ≤ (i : ℚ) := by positivity
  have h1 : r * (i : ℚ) ≤ (i : ℚ) := by nlinarith
  have h2 : round (r * (i : ℚ)) ≤ (i : ℤ) := by
    rw [round_eq, Int.floor_le_iff]
    push_cast
    linarith
  omega

lemma slotOf_updateCells (w : Nat) (c : Nat → Nat → Nat) (j v : Nat) :
    slotOf w (updateCells c (j % w) (j / w) v) = updateSlot (slotOf w c) j v := by
  funext k
  unfold slotOf updateCells updateSlot
  by_cases h : k = j
  · subst h
    simp
  · rw [if_neg, if_neg h]
    rintro ⟨h1, h2⟩
    apply h
    have ha := Nat.div_add_mod k w
    have hb := Nat.div_add_mod j w
    rw [← ha, ← hb, h1, h2]

lemma slotOf_seedStep (w N : Nat) (c : Nat → Nat → Nat) (i : Nat) (r : ℚ) :
    slotOf w (seedStep w N c i r) = slotStep N (slotOf w c) i r := by
  unfold seedStep slotStep
  dsimp only
  rw [slotOf_updateCells, slotOf_updateCells]
  rfl

lemma slotOf_foldl (w N : Nat) (stream : Nat → ℚ) (L : List Nat) :
    ∀ c : Nat → Nat → Nat,
      slotOf w (L.foldl (fun c i => seedStep w N c i (stream i)) c)
        = L.foldl (fun s i => slotStep N s i (stream i)) (slotOf w c) := by
  induction L with
  | nil => intro c; rfl
  | cons i L ih =>
    intro c
    simp only [List.foldl_cons]
    rw [ih, slotOf_seedStep]

lemma slotOf_prepareSeed (w h : Nat) (stream : Nat → ℚ) (c : Nat → Nat → Nat) :
    slotOf w (prepareSeed w h stream c)
      = slotSeedUpTo (w * h) stream (slotOf w c) (w * h) := by
  unfold prepareSeed slotSeedUpTo
  exact slotOf_foldl w (w * h) stream (List.range (w * h)) c

lemma slotSeedUpTo_succ (N : Nat) (stream : Nat → ℚ) (s : Nat → Nat) (n : Nat) :
    slotSeedUpTo N stream s (n + 1)
      = slotStep N (slotSeedUpTo N stream s n) n (stream n) := by
  unfold slotSeedUpTo
  rw [List.range_succ, List.foldl_append]
  rfl

lemma countP_range_succ (q : Nat → Bool) (n : Nat) :
    (List.range (n + 1)).countP q
      = (List.range n).countP q + if q n then 1 else 0 := by
  rw [List.range_succ, List.countP_append]
  cases h : q n <;> simp [List.countP, List.countP.go, h]

end Life

namespace Life

lemma countP_updateSlot (t : Nat → Nat) (v : Nat) :
    ∀ n r : Nat, r < n →
      (List.range n).countP (fun k => updateSlot t r v k == aliveColor)
          + (if t r == aliveColor then 1 else 0)
        = (List.range n).countP (fun k => t k == aliveColor)
          + (if v == aliveColor then 1 else 0) := by
  intro n
  induction n with
  | zero => intro r hr; omega
  | succ n ih =>
    intro r hr
    rw [countP_range_succ, countP_range_succ]
    by_cases h : r = n
    · subst h
      have hc : (List.range r).countP (fun k => updateSlot t r v k == aliveColor)
          = (List.range r).countP (fun k => t k == aliveColor) := by
        apply List.countP_congr
        intro k hk
        have hkr : k ≠ r := by
          have := List.mem_range.mp hk
          omega
        simp [updateSlot, hkr]
      have hu : updateSlot t r v r = v := by simp [updateSlot]
      rw [hc, hu]
      omega
    · have hrn : r < n := by omega
      have hu : updateSlot t r v n = t n := by
        unfold updateSlot
        rw [if_neg fun hc => h hc.symm]
      rw [hu]
      have := ih r hrn
      omega

lemma slotSeed_count (N : Nat) (stream : Nat → ℚ) (hs : ∀ n, stream n < 1)
    (s : Nat → Nat) :
    ∀ n, (List.range n).countP (fun k => slotSeedUpTo N stream s n k == aliveColor)
      = (List.range n).countP (fun i => seedValue N i == aliveColor) := by
  intro n
  induction n with
  | zero => rfl
  | succ n ih =>
    rw [slotSeedUpTo_succ, countP_range_succ, countP_range_succ (fun i => seedValue N i == aliveColor)]
    set t := slotSeedUpTo N stream s n with ht
    set r := randIndex (stream n) n with hrdef
    have hrn : r ≤ n := randIndex_le (stream n) n (hs n)
    unfold slotStep
    rw [← hrdef]
    by_cases h : r = n
    · -- the fresh value lands on slot n itself
      have hun : updateSlot (updateSlot t n (t r)) r (seedValue N n) n = seedValue N n := by
        simp [updateSlot, h]
      have hc : (List.range n).countP
            (fun k => updateSlot (updateSlot t n (t r)) r (seedValue N n) k == aliveColor)
          = (List.range n).countP (fun k => t k == aliveColor) := by
        apply List.countP_congr
        intro k hk
        have hkn : k ≠ n := by
          have := List.mem_range.mp hk
          omega
        simp [updateSlot, hkn, h ▸ hkn]
      rw [hun, hc, ih]
    · have hrn' : r < n := by omega
      -- outer state: u = updateSlot t' r v with t' = updateSlot t n (t r)
      have key := countP_updateSlot (updateSlot t n (t r)) (seedValue N n) (n + 1) r (by omega)
      have h1 : updateSlot t n (t r) r = t r := by simp [updateSlot, h]
      have h2 : (List.range (n + 1)).countP (fun k => updateSlot t n (t r) k == aliveColor)
          = (List.range n).countP (fun k => t k == aliveColor)
            + (if t r == aliveColor then 1 else 0) := by
        rw [countP_range_succ]
        have hc : (List.range n).countP (fun k => updateSlot t n (t r) k == aliveColor)
            = (List.range n).countP (fun k => t k == aliveColor) := by
          apply List.countP_congr
          intro k hk
          have hkn : k ≠ n := by
            have := List.mem_range.mp hk
            omega
          simp [updateSlot, hkn]
        have hn : updateSlot t n (t r) n = t r := by simp [updateSlot]
        rw [hc, hn]
      rw [h1, h2] at key
      have hun : updateSlot (updateSlot t n (t r)) r (seedValue N n) n = t r := by
        unfold updateSlot
        rw [if_neg fun hc => h hc.symm, if_pos rfl]
      have h3 := countP_range_succ
        (fun k => updateSlot (updateSlot t n (t r)) r (seedValue N n) k == aliveColor) n
      simp only [hun] at h3 ⊢
      cases htr : (t r == aliveColor) <;> cases hv : (seedValue N n == aliveColor) <;>
        simp only [htr, hv, Bool.false_eq_true, if_false, if_true] at key h3 ih ⊢ <;>
        omega


lemma seedValue_alive (N i : Nat) :
    (seedValue N i == aliveColor) = decide (10 * i < N) := by
  unfold seedValue
  split_ifs with h
  · have h10 : 10 * i < N := by
      rw [lt_div_iff (by norm_num : (0 : ℚ) < 10)] at h
      have hc : ((10 * i : ℕ) : ℚ) < (N : ℚ) := by push_cast; linarith
      exact_mod_cast hc
    simp [h10]
  · have h10 : ¬10 * i < N := by
      intro hlt
      apply h
      rw [lt_div_iff (by norm_num : (0 : ℚ) < 10)]
      have hc : ((10 * i : ℕ) : ℚ) < (N : ℚ) := by exact_mod_cast hlt
      push_cast at hc
      linarith
    simp [h10, aliveColor, deadColor]

lemma countP_range_lt (M : Nat) :
    ∀ n, (List.range n).countP (fun i => decide (i < M)) = min M n := by
  intro n
  induction n with
  | zero => simp
  | succ n ih =>
    rw [countP_range_succ, ih]
    by_cases h : n < M <;> simp [h] <;> omega

lemma count_seedValue (N : Nat) :
    (List.range N).countP (fun i => seedValue N i == aliveColor) = (N + 9) / 10 := by
  have h1 : ∀ i ∈ List.range N,
      ((seedValue N i == aliveColor) = true ↔ decide (i < (N + 9) / 10) = true) := by
    intro i _
    rw [seedValue_alive]
    simp only [decide_eq_true_eq]
    omega
  rw [List.countP_congr h1, countP_range_lt]
  omega

lemma aliveCount_eq_slots (w h : Nat) (c : Nat → Nat → Nat) :
    aliveCount w h c
      = (List.range (h * w)).countP fun k => slotOf w c k == aliveColor := by
  unfold aliveCount
  rw [scanCoords_eq_map, List.countP_map]
  rfl

lemma prepareSeed_aliveCount (w h : Nat) (stream : Nat → ℚ)
    (hs : ∀ n, stream n < 1) (c : Nat → Nat → Nat) :
    aliveCount w h (prepareSeed w h stream c) = (w * h + 9) / 10 := by
  rw [aliveCount_eq_slots, Nat.mul_comm h w, slotOf_prepareSeed]
  rw [slotSeed_count (w * h) stream hs (slotOf w c) (w * h)]
  exact count_seedValue (w * h)

lemma slotSeed_agree (N : Nat) (stream : Nat → ℚ) (hs : ∀ n, stream n < 1)
    (s t : Nat → Nat) : ∀ n k, k < n →
      slotSeedUpTo N stream s n k = slotSeedUpTo N stream t n k := by
  intro n
  induction n with
  | zero => intro k hk; omega
  | succ n ih =>
    intro k hk
    rw [slotSeedUpTo_succ, slotSeedUpTo_succ]
    have hrle : randIndex (stream n) n ≤ n := randIndex_le _ _ (hs n)
    unfold slotStep updateSlot
    by_cases hkr : k = randIndex (stream n) n
    · rw [if_pos hkr, if_pos hkr]
    · rw [if_neg hkr, if_neg hkr]
      by_cases hkn : k = n
      · rw [if_pos hkn, if_pos hkn]
        exact ih _ (by omega)
      · rw [if_neg hkn, if_neg hkn]
        exact ih k (by omega)

lemma prepareSeed_agree (w h : Nat) (stream : Nat → ℚ) (hs : ∀ n, stream n < 1)
    (c0 c1 : Nat → Nat → Nat) (x y : Nat) (hx : x < w) (hy : y < h) :
    prepareSeed w h stream c0 x y = prepareSeed w h stream c1 x y := by
  have hw0 : 0 < w := Nat.lt_of_le_of_lt (Nat.zero_le x) hx
  have hk : y * w + x < w * h := by
    have h1 : y * w + x < (y + 1) * w := by rw [Nat.succ_mul]; omega
    have h2 : (y + 1) * w ≤ h * w := Nat.mul_le_mul_right w hy
    rw [Nat.mul_comm w h]
    omega
  have hmod : (y * w + x) % w = x := by
    rw [Nat.mul_comm, Nat.mul_add_mod, Nat.mod_eq_of_lt hx]
  have hdiv : (y * w + x) / w = y := by
    rw [Nat.mul_comm, Nat.mul_add_div hw0, Nat.div_eq_of_lt hx, Nat.add_zero]
  have e0 : slotOf w (prepareSeed w h stream c0) (y * w + x)
      = prepareSeed w h stream c0 x y := by
    unfold slotOf
    rw [hmod, hdiv]
  have e1 : slotOf w (prepareSeed w h stream c1) (y * w + x)
      = prepareSeed w h stream c1 x y := by
    unfold slotOf
    rw [hmod, hdiv]
  rw [← e0, ← e1, slotOf_prepareSeed, slotOf_prepareSeed]
  exact slotSeed_agree (w * h) stream hs _ _ (w * h) (y * w + x) hk


/-- The eight neighbour offsets as the spec words them: `dx, dy` in
`{-1, 0, 1}`, skipping only `dx = dy = 0`. -/
def specOffsets : List (Int × Int) :=
  (([-1, 0, 1] : List Int).flatMap fun dx =>
      ([-1, 0, 1] : List Int).map fun dy => (dx, dy)).filter
    fun dd => dd ≠ (0, 0)

/-- The neighbour count exactly as the claim words it: the number of the 8
surrounding offsets whose cell, at `neighbourX = (x + dx + width) % width` and
`neighbourY = (y + dy + height) % height`, has vitality equal to the alive
threshold. -/
def neighbourCountSpec (g : Grid) (x y : Nat) : Nat :=
  specOffsets.countP fun dd =>
    g.cells ((((x : Int) + dd.1 + (g.width : Int)) % (g.width : Int)).toNat)
      ((((y : Int) + dd.2 + (g.height : Int)) % (g.height : Int)).toNat)
        == aliveColor

lemma neighbourCountSpec_eq (g : Grid) (x y : Nat) :
    neighbourCountSpec g x y = neighbourCount g x y := by
  have hoff : specOffsets
      = [(-1, -1), (-1, 0), (-1, 1), (0, -1), (0, 1), (1, -1), (1, 0), (1, 1)] := by
    decide
  have hcx : ∀ j : Int,
      ((x : Int) + j + (g.width : Int)) = ((g.width : Int) + ((x : Int) + j)) := by
    intro j
    ring
  have hcy : ∀ j : Int,
      ((y : Int) + j + (g.height : Int)) = ((g.height : Int) + ((y : Int) + j)) := by
    intro j
    ring
  unfold neighbourCountSpec neighbourCount wrapMod
  rw [hoff]
  simp only [deltas, List.countP_cons, List.countP_nil, hcx, hcy]
  norm_num


/-- A 1×1 grid whose single cell is fully dead. -/
def gridDead1 : Grid := ⟨1, 1, fun _ _ => deadColor⟩

/-- A 2×2 grid with every cell fully dead. -/
def gridDead2 : Grid := ⟨2, 2, fun _ _ => deadColor⟩

/-- A 5×5 grid with a horizontal blinker (three alive cells) on the centre row. -/
def gridBlinker : Grid :=
  ⟨5, 5, fun x y => if y = 2 ∧ (x = 1 ∨ x = 2 ∨ x = 3) then aliveColor else deadColor⟩

/-- A 2×2 grid with a single alive cell. -/
def gridOneAlive2 : Grid :=
  ⟨2, 2, fun x y => if x = 0 ∧ y = 0 then aliveColor else deadColor⟩

lemma iterate_cells (d : Nat) (g : Grid) (x y : Nat) (hx : x < g.width)
    (hy : y < g.height) :
    (iterate d g).1.cells x y
      = applyEffect d (cellChange neighbourCount g x y) (g.cells x y) :=
  iterateWith_fst_cells neighbourCount d g x y hx hy

/-- Claim C1: one generation is two-phase.  During the scan the grid is never
written (after any prefix of the scan loop the grid component is still the
input grid), every ChangeRecord is the pure `cellChange` decision computed
against the initial snapshot, and the returned grid is the input grid with the
completed queue applied only after the full scan. -/
theorem C1_two_phase_snapshot (d : Nat) (g : Grid) :
    (∀ L1 L2 : List (Nat × Nat), scanCoords g.width g.height = L1 ++ L2 →
        (L1.foldl (scanStep neighbourCount) (g, [])).1 = g)
    ∧ (iterate d g).2 = (scanCoords g.width g.height).filterMap
        (fun p => cellChange neighbourCount g p.1 p.2)
    ∧ (iterate d g).1 = applyQueue d g ((iterate d g).2) := by
  have hq : (iterate d g).2 = queueOf neighbourCount g := by
    show (iterateWith neighbourCount d g).2 = _
    rw [iterateWith_eq]
  refine ⟨?_, hq, ?_⟩
  · intro L1 L2 _
    rw [scan_foldl]
  · rw [hq]
    show (iterateWith neighbourCount d g).1 = _
    rw [iterateWith_eq]

/-- Claim C2: the neighbour count used by the step is exactly the claim's
formula: the number of the 8 offsets (skipping only `dx = dy = 0`) whose
toroidally wrapped coordinate `((x+dx+w) % w, (y+dy+h) % h)` holds an alive
cell; consequently running the step with the claim's count is the step. -/
theorem C2_neighbour_count (d : Nat) (g : Grid) :
    (∀ x y : Nat, neighbourCountSpec g x y = neighbourCount g x y)
    ∧ iterateWith (fun g x y => neighbourCountSpec g x y) d g = iterate d g := by
  have hfn : (fun (g : Grid) (x y : Nat) => neighbourCountSpec g x y)
      = neighbourCount := by
    funext g x y
    exact neighbourCountSpec_eq g x y
  exact ⟨fun x y => neighbourCountSpec_eq g x y, by rw [hfn]; rfl⟩

/-- Claim C3 counterexample: on a 1×1 grid whose cell is fully dead
(vitality `MAX = 255`) with neighbour count 0 ≠ 3, the step does NOT leave the
cell unchanged: it emits a Decay record and the vitality becomes 259. -/
theorem C3_counterexample :
    gridDead1.cells 0 0 = deadColor
    ∧ neighbourCount gridDead1 0 0 ≠ 3
    ∧ (iterate dyingDelta gridDead1).2 = [ChangeRecord.expire 0 0]
    ∧ (iterate dyingDelta gridDead1).1.cells 0 0 = 259 := by
  decide

/-- Claim C3 (amended): a cell that is not alive with vitality `MAX` and
neighbour count ≠ 3 gets a Decay record emitted for it, and its vitality
after the step is `MAX + decayStep` (the source's dead-cell branch tests
`cells[x][y] > 0`, which also fires for fully dead cells). -/
theorem C3_fully_dead_decays (d : Nat) (g : Grid) (x y : Nat)
    (hx : x < g.width) (hy : y < g.height) (hv : g.cells x y = deadColor)
    (hnc : neighbourCount g x y ≠ 3) :
    ChangeRecord.expire x y ∈ (iterate d g).2
    ∧ (iterate d g).1.cells x y = deadColor + d := by
  have hc := cellChange_fully_dead neighbourCount g x y hv hnc
  constructor
  · show ChangeRecord.expire x y ∈ (iterateWith neighbourCount d g).2
    rw [iterateWith_eq]
    exact mem_queueOf neighbourCount g x y _ hx hy hc
  · rw [iterate_cells d g x y hx hy, hc, hv]
    rfl

/-- Witness for C3's amended theorem at the 1×1 fully dead grid. -/
theorem C3_fully_dead_decays_witness :
    ChangeRecord.expire 0 0 ∈ (iterate dyingDelta gridDead1).2
    ∧ (iterate dyingDelta gridDead1).1.cells 0 0 = deadColor + dyingDelta :=
  C3_fully_dead_decays dyingDelta gridDead1 0 0 (by decide) (by decide) (by decide)
    (by decide)

/-- Claim C4 counterexample: applying a Decay record does not saturate at
`MAX`: a fully dead cell (255) decayed with `decayStep = 4` reaches 259,
exceeding `MAX = 255`. -/
theorem C4_counterexample :
    (applyChange dyingDelta gridDead1 (ChangeRecord.expire 0 0)).cells 0 0 = 259
    ∧ deadColor < 259 := by
  decide

/-- Claim C4 (amended): applying `Revive(x,y)` sets the cell's vitality to 0
and applying `Decay(x,y)` adds `decayStep` to it WITHOUT clamping, so the
vitality can exceed `MAX`. -/
theorem C4_apply_change (d : Nat) (g : Grid) (x y : Nat) :
    (applyChange d g (ChangeRecord.revive x y)).cells x y = aliveColor
    ∧ (applyChange d g (ChangeRecord.expire x y)).cells x y = g.cells x y + d := by
  constructor <;> simp [applyChange, reviveCell, expireCell, setCell, updateCells]

/-- Claim C5 counterexample: on an 11×1 grid (with the source's
`liveCount = cellCount / 10`), seeding yields exactly 2 alive cells, while
`round(width * height * initialLiveFraction) = round(1.1) = 1`. -/
theorem C5_counterexample :
    aliveCount 11 1 (prepareSeed 11 1 (fun _ => 0) (fun _ _ => deadColor)) = 2
    ∧ round ((11 * 1 : ℚ) / 10) = 1 := by
  constructor
  · rw [prepareSeed_aliveCount 11 1 (fun _ => 0) (fun _ => by norm_num)
      (fun _ _ => deadColor)]
  · rw [round_eq]
    norm_num

/-- Claim C5 (amended): for any stream of random draws in `[0, 1)`, seeding
produces exactly `⌈width*height/10⌉ = (width*height + 9) / 10` alive cells —
the number of loop indices `i < width*height` with `i < width*height/10` —
rather than `round(width*height/10)`. -/
theorem C5_seed_alive_count (w h : Nat) (stream : Nat → ℚ)
    (hs : ∀ n, 0 ≤ stream n ∧ stream n < 1) (c : Nat → Nat → Nat) :
    aliveCount w h (prepareSeed w h stream c) = (w * h + 9) / 10 :=
  prepareSeed_aliveCount w h stream (fun n => (hs n).2) c

/-- Witness for C5's amended theorem on a 2×5 grid: exactly 1 alive cell. -/
theorem C5_seed_alive_count_witness :
    aliveCount 2 5 (prepareSeed 2 5 (fun _ => 0) (fun _ _ => deadColor)) = 1 :=
  C5_seed_alive_count 2 5 (fun _ => 0) (fun _ => by norm_num) (fun _ _ => deadColor)

/-- Claim C6: in binary mode (`decayStep = MAX = 255`) the horizontal blinker
on the 5×5 grid becomes the vertical bar of 3 alive cells about the centre
after one step-and-apply, and is back to the horizontal bar after a second. -/
theorem C6_blinker :
    (∀ x, x < 5 → ∀ y, y < 5 →
      ((iterate deadColor gridBlinker).1.cells x y = aliveColor
        ↔ (x = 2 ∧ (y = 1 ∨ y = 2 ∨ y = 3))))
    ∧ (∀ x, x < 5 → ∀ y, y < 5 →
      ((iterate deadColor (iterate deadColor gridBlinker).1).1.cells x y = aliveColor
        ↔ (y = 2 ∧ (x = 1 ∨ x = 2 ∨ x = 3)))) := by
  decide

/-- Claim C7 counterexample: on the all-dead 2×2 grid the step does NOT
return an empty queue: it emits one Decay per cell and changes every
vitality from 255 to 259. -/
theorem C7_counterexample :
    (∀ x, x < 2 → ∀ y, y < 2 → gridDead2.cells x y = deadColor)
    ∧ (iterate dyingDelta gridDead2).2
        = [ChangeRecord.expire 0 0, ChangeRecord.expire 1 0,
           ChangeRecord.expire 0 1, ChangeRecord.expire 1 1]
    ∧ (iterate dyingDelta gridDead2).2 ≠ []
    ∧ (iterate dyingDelta gridDead2).1.cells 0 0 = 259 := by
  decide

/-- Claim C7 (amended): a step on an all-dead grid of any size returns one
Decay record per cell, in scan order, and raises every cell's vitality to
`MAX + decayStep`. -/
theorem C7_all_dead_step (d : Nat) (g : Grid)
    (hdead : ∀ x y, x < g.width → y < g.height → g.cells x y = deadColor) :
    (iterate d g).2 = (scanCoords g.width g.height).map
        (fun p => ChangeRecord.expire p.1 p.2)
    ∧ ∀ x y, x < g.width → y < g.height →
        (iterate d g).1.cells x y = deadColor + d := by
  have hne : ∀ a b, a < g.width → b < g.height → g.cells a b ≠ aliveColor := by
    intro a b ha hb
    rw [hdead a b ha hb]
    decide
  have hcell : ∀ p ∈ scanCoords g.width g.height,
      cellChange neighbourCount g p.1 p.2
        = some (ChangeRecord.expire p.1 p.2) := by
    intro p hp
    obtain ⟨x, y⟩ := p
    obtain ⟨hx, hy⟩ := (scanCoords_mem _ _ x y).mp hp
    have hnc := neighbourCount_eq_zero_of_dead g x y hx hy hne
    exact cellChange_fully_dead neighbourCount g x y (hdead x y hx hy)
      (by rw [hnc]; decide)
  constructor
  · show (iterateWith neighbourCount d g).2 = _
    rw [iterateWith_eq]
    unfold queueOf
    rw [List.filterMap_congr hcell]
    exact congrFun (List.filterMap_eq_map fun p : Nat × Nat =>
      ChangeRecord.expire p.1 p.2) (scanCoords g.width g.height)
  · intro x y hx hy
    rw [iterate_cells d g x y hx hy,
      hcell (x, y) ((scanCoords_mem _ _ x y).mpr ⟨hx, hy⟩), hdead x y hx hy]
    rfl

/-- Witness for C7's amended theorem at the all-dead 2×2 grid. -/
theorem C7_all_dead_step_witness :
    (iterate dyingDelta gridDead2).2 = (scanCoords 2 2).map
        (fun p => ChangeRecord.expire p.1 p.2)
    ∧ ∀ x y, x < 2 → y < 2 →
        (iterate dyingDelta gridDead2).1.cells x y = deadColor + dyingDelta :=
  C7_all_dead_step dyingDelta gridDead2 (fun _ _ _ _ => rfl)

/-- Claim C8: on a 1×1 grid all 8 neighbour probes (only the literal
`dx = dy = 0` offset is skipped) wrap back to the cell itself, so an alive
cell sees `neighbourCount = 8` and the step emits a Decay for it. -/
theorem C8_one_by_one (d : Nat) (g : Grid) (hw : g.width = 1)
    (hh : g.height = 1) (ha : g.cells 0 0 = aliveColor) :
    neighbourCount g 0 0 = 8 ∧ (iterate d g).2 = [ChangeRecord.expire 0 0] := by
  obtain ⟨w, h, c⟩ := g
  simp only at hw hh ha
  subst hw
  subst hh
  have hnc : neighbourCount ⟨1, 1, c⟩ 0 0 = 8 := by
    unfold neighbourCount wrapMod deltas
    norm_num [ha]
  refine ⟨hnc, ?_⟩
  show (iterateWith neighbourCount d ⟨1, 1, c⟩).2 = _
  rw [iterateWith_eq]
  unfold queueOf
  have hsc : scanCoords 1 1 = [(0, 0)] := by decide
  dsimp only
  rw [hsc]
  simp only [List.filterMap_cons, List.filterMap_nil]
  rw [cellChange]
  simp [ha, hnc]

/-- Witness for C8 at the concrete all-alive 1×1 grid. -/
theorem C8_one_by_one_witness :
    neighbourCount ⟨1, 1, fun _ _ => aliveColor⟩ 0 0 = 8
    ∧ (iterate dyingDelta ⟨1, 1, fun _ _ => aliveColor⟩).2
        = [ChangeRecord.expire 0 0] :=
  C8_one_by_one dyingDelta ⟨1, 1, fun _ _ => aliveColor⟩ rfl rfl rfl

/-- Claim C9: seeding is reproducible: with the stream of random draws fixed
by the seed value, two `prepareSeed` runs give cell-for-cell identical grids
regardless of the prior contents of the cells array. -/
theorem C9_seed_deterministic {σ : Type} (seedStream : σ → Nat → ℚ) (seed : σ)
    (hs : ∀ n, 0 ≤ seedStream seed n ∧ seedStream seed n < 1)
    (w h : Nat) (c0 c1 : Nat → Nat → Nat) (x y : Nat) (hx : x < w) (hy : y < h) :
    prepareSeed w h (seedStream seed) c0 x y
      = prepareSeed w h (seedStream seed) c1 x y :=
  prepareSeed_agree w h (seedStream seed) (fun n => (hs n).2) c0 c1 x y hx hy

/-- Witness for C9: 1×1 grid, constant zero stream, two different junk
initial arrays. -/
theorem C9_seed_deterministic_witness :
    prepareSeed 1 1 (fun _ => 0) (fun _ _ => 7) 0 0
      = prepareSeed 1 1 (fun _ => 0) (fun _ _ => 9) 0 0 :=
  C9_seed_deterministic (σ := Nat) (fun _ _ => 0) 0 (fun _ => by norm_num)
    1 1 (fun _ _ => 7) (fun _ _ => 9) 0 0 (by decide) (by decide)

/-- Claim C10: on grids with both dimensions at least 2, the `life.js`
iterate (post-wrap self-skip, if-chain wrap) and the other variant's iterate
(pre-wrap skip, modulo wrap) produce identical ChangeRecord queues. -/
theorem C10_variants_agree (d : Nat) (g : Grid) (hw : 2 ≤ g.width)
    (hh : 2 ≤ g.height) : (iterateIf d g).2 = (iterate d g).2 := by
  show (iterateWith neighbourCountIf d g).2 = (iterateWith neighbourCount d g).2
  rw [iterateWith_eq, iterateWith_eq]
  exact queueOf_eq g hw hh

/-- Witness for C10 at a concrete 2×2 grid with one alive cell. -/
theorem C10_variants_agree_witness :
    (iterateIf dyingDelta gridOneAlive2).2 = (iterate dyingDelta gridOneAlive2).2 :=
  C10_variants_agree dyingDelta gridOneAlive2 (by decide) (by decide)

end Life
